import Mathlib

/-!
Verification development for the gramtools core (PRG encoding, masks,
vBWT backward search, kmer serialization, coverage recording).

The C++ sources are shallowly embedded: pure functions become Lean
functions on `Nat`/`List Nat`; `uint64_t`/`uint32_t` arithmetic is `Nat`
with an explicit `% 2^64` (resp. `% 2^32`) where wrap-around matters;
the sdsl FM-index is a structure of access functions (suffix-array
access, BWT content, `C` array, `char2comp`/`comp2char`, `sigma`), with
`rank` realized as occurrence counting on the BWT prefix, which is the
documented semantics of the rank-support bit-vectors.
-/

/-! ### PRG encoding (prg/prg.cpp) -/

/-- Result of `encode_char`: whether the byte is DNA and its encoded value. -/
structure EncodeResult where
  is_dna : Bool
  character : Nat
deriving Repr, DecidableEq

/-- `encode_char` from prg/prg.cpp. Bytes are ASCII codes:
A=65, a=97, C=67, c=99, G=71, g=103, T=84, t=116.
Any other byte falls through to the default case, which casts it to a
"digit" value `(uint32_t) c - '0'` (modelled with the uint32 wrap). -/
def encode_char (c : Nat) : EncodeResult :=
  if c = 65 ∨ c = 97 then ⟨true, 1⟩
  else if c = 67 ∨ c = 99 then ⟨true, 2⟩
  else if c = 71 ∨ c = 103 then ⟨true, 3⟩
  else if c = 84 ∨ c = 116 then ⟨true, 4⟩
  else ⟨false, (c + 2 ^ 32 - 48) % 2 ^ 32⟩

/-- `concat_marker_digits` from prg/prg.cpp: fold digits as base-10. -/
def concat_marker_digits (marker_digits : List Nat) : Nat :=
  marker_digits.foldl (fun marker digit => marker * 10 + digit) 0

/-- `flush_marker_digits` from prg/prg.cpp: append the accumulated marker
(if any) to the encoded output. -/
def flush_marker_digits (marker_digits : List Nat) (encoded : List Nat) : List Nat :=
  if marker_digits.isEmpty then encoded else encoded ++ [concat_marker_digits marker_digits]

/-- The character loop of `encode_prg` from prg/prg.cpp, threading the
digit accumulator and the encoded output. -/
def encode_prg_loop : List Nat → List Nat → List Nat → List Nat
  | [], marker_digits, encoded => flush_marker_digits marker_digits encoded
  | c :: rest, marker_digits, encoded =>
    let encode_result := encode_char c
    if encode_result.is_dna then
      encode_prg_loop rest [] (flush_marker_digits marker_digits encoded ++ [encode_result.character])
    else
      encode_prg_loop rest (marker_digits ++ [encode_result.character]) encoded

/-- `encode_prg` from prg/prg.cpp on a raw byte string (list of ASCII codes). -/
def encode_prg (prg_raw : List Nat) : List Nat :=
  encode_prg_loop prg_raw [] []

/-! ### Site and allele masks (prg/masks.cpp) -/

/-- The scan of `generate_sites_mask` from prg/masks.cpp, with the state
machine state (`current_site_marker`, `within_variant_site`) explicit. -/
def generate_sites_mask_go : List Nat → Nat → Bool → List Nat
  | [], _, _ => []
  | prg_char :: rest, current_site_marker, within_variant_site =>
    let at_variant_site_boundary := 4 < prg_char ∧ prg_char % 2 ≠ 0
    if at_variant_site_boundary ∧ ¬ within_variant_site then
      0 :: generate_sites_mask_go rest prg_char true
    else if at_variant_site_boundary ∧ within_variant_site then
      0 :: generate_sites_mask_go rest current_site_marker false
    else if prg_char ≤ 4 ∧ within_variant_site then
      current_site_marker :: generate_sites_mask_go rest current_site_marker within_variant_site
    else
      0 :: generate_sites_mask_go rest current_site_marker within_variant_site

/-- `generate_sites_mask` from prg/masks.cpp. -/
def generate_sites_mask (encoded_prg : List Nat) : List Nat :=
  generate_sites_mask_go encoded_prg 0 false

/-- The scan of `generate_allele_mask` from prg/masks.cpp, with the state
machine state (`current_allele_id`, `within_variant_site`) explicit. -/
def generate_allele_mask_go : List Nat → Nat → Bool → List Nat
  | [], _, _ => []
  | prg_char :: rest, current_allele_id, within_variant_site =>
    let at_variant_site_boundary := 4 < prg_char ∧ prg_char % 2 ≠ 0
    if at_variant_site_boundary ∧ ¬ within_variant_site then
      0 :: generate_allele_mask_go rest 1 true
    else if at_variant_site_boundary ∧ within_variant_site then
      0 :: generate_allele_mask_go rest current_allele_id false
    else if prg_char ≤ 4 ∧ within_variant_site then
      current_allele_id :: generate_allele_mask_go rest current_allele_id within_variant_site
    else if 4 < prg_char ∧ prg_char % 2 = 0 then
      0 :: generate_allele_mask_go rest (current_allele_id + 1) within_variant_site
    else
      0 :: generate_allele_mask_go rest current_allele_id within_variant_site

/-- `generate_allele_mask` from prg/masks.cpp. -/
def generate_allele_mask (encoded_prg : List Nat) : List Nat :=
  generate_allele_mask_go encoded_prg 1 false

/-! ### `next_kmer` decrement loop (kmer_index/kmers.cpp) -/

/-- The sequence of indexes read by the decrement loop of `next_kmer`
(kmer_index/kmers.cpp):
`while (current_kmer[max_update_index] == 4) max_update_index--;`
started at `idx`. Each visited index is recorded (as a signed value, since
`max_update_index` is `int64_t`); when the entry at index 0 is also 4, the
loop's next read is at index `-1`, which we record and stop, since the
out-of-bounds value is not defined. -/
def next_kmer_scan (current_kmer : List Nat) : Nat → List Int
  | 0 =>
    if current_kmer.getD 0 0 = 4 then [(0 : Int), (-1 : Int)] else [(0 : Int)]
  | idx + 1 =>
    if current_kmer.getD (idx + 1) 0 = 4 then
      ((idx + 1 : Nat) : Int) :: next_kmer_scan current_kmer idx
    else [((idx + 1 : Nat) : Int)]

/-- The reads performed by `next_kmer`'s decrement loop, which starts at
`max_update_index = kmer_size - 1`. -/
def next_kmer_accesses (current_kmer : List Nat) (kmer_size : Nat) : List Int :=
  next_kmer_scan current_kmer (kmer_size - 1)

/-! ### Kmer prefix-diff serialization (kmer_index/kmers.cpp) -/

/-- The inner scan of `get_prefix_diffs` (kmer_index/kmers.cpp): walk the
index from `n - 1` down to `0`, setting the flag at the first position
(from the right) where `kmer` and `last_full_kmer` differ, and pushing
every base at or left of that position to the front of the diff list.
The argument counts how many indexes remain, so `idx + 1` processes
index `idx`. -/
def prefix_diff_scan (kmer last_full_kmer : List Nat) : Nat → Bool → List Nat → List Nat
  | 0, _, acc => acc
  | idx + 1, flag, acc =>
    let base := kmer.getD idx 0
    let last_full_base := last_full_kmer.getD idx 0
    let flag2 := flag || decide (base ≠ last_full_base)
    prefix_diff_scan kmer last_full_kmer idx flag2 (if flag2 then base :: acc else acc)

/-- The kmer loop of `get_prefix_diffs` (kmer_index/kmers.cpp), threading
`last_full_kmer`. -/
def get_prefix_diffs_loop : List (List Nat) → List Nat → List (List Nat)
  | [], _ => []
  | kmer :: rest, last_full_kmer =>
    if last_full_kmer.isEmpty then
      kmer :: get_prefix_diffs_loop rest kmer
    else
      prefix_diff_scan kmer last_full_kmer last_full_kmer.length false []
        :: get_prefix_diffs_loop rest kmer

/-- `get_prefix_diffs` from kmer_index/kmers.cpp. -/
def get_prefix_diffs (kmers : List (List Nat)) : List (List Nat) :=
  get_prefix_diffs_loop kmers []

/-! ### Search-engine data model (search/search.hpp, prg/prg.hpp) -/

/-- `SearchVariantSiteState` from search/search.hpp. -/
inductive SearchVariantSiteState where
  | within_variant_site
  | outside_variant_site
  | unknown
deriving Repr, DecidableEq

/-- `SearchState` from search/search.hpp: SA interval, variant-site path
(a list of `(site_marker, allele_id)` loci, front = most recently
prepended), and the site-state flag. The `invalid` flag of the C++
struct is modelled by returning `Option SearchState` from the fallible
extension instead. -/
structure SearchState where
  sa_interval : Nat × Nat
  variant_site_path : List (Nat × Nat)
  variant_site_state : SearchVariantSiteState
deriving Repr, DecidableEq

/-- The sdsl FM-index as consumed by the search engine: suffix-array
access `sa`, the BWT content (rank over it is occurrence counting on a
prefix), the `C` array, the alphabet maps and size. -/
structure FMIndex where
  sa : Nat → Nat
  bwt : List Nat
  char2comp : Nat → Nat
  comp2char : Nat → Nat
  C : Nat → Nat
  sigma : Nat
  size : Nat

/-- `PRG_Info` (prg/prg.hpp), restricted to the fields the embedded
operations read. `prg_markers_rank`/`prg_markers_select` are the
rank/select structures over the PRG marker mask, kept abstract. -/
structure PRGInfo where
  fm_index : FMIndex
  sites_mask : Nat → Nat
  allele_mask : Nat → Nat
  prg_markers_rank : Nat → Nat
  prg_markers_select : Nat → Nat

/-- `2^64`, the modulus of the C++ `uint64_t` arithmetic. -/
def u64 : Nat := 2 ^ 64

/-- `fm_index.bwt.rank(i, c)`: number of occurrences of `c` in
`BWT[0..i)` (sdsl rank is non-inclusive of the upper index). -/
def bwt_rank (prg : PRGInfo) (c : Nat) (i : Nat) : Nat :=
  (prg.fm_index.bwt.take i).count c

/-- `dna_bwt_rank` from prg/prg.cpp: rank over the per-base DNA BWT
bit-mask of `dna_base`; a mask for base `b` marks the occurrences of `b`
in the BWT, so its rank at `upper_index` is the occurrence count of `b`
in `BWT[0..upper_index)`. The default case of the switch returns 0. -/
def dna_bwt_rank (upper_index : Nat) (dna_base : Nat) (prg : PRGInfo) : Nat :=
  match dna_base with
  | 1 => bwt_rank prg 1 upper_index
  | 2 => bwt_rank prg 2 upper_index
  | 3 => bwt_rank prg 3 upper_index
  | 4 => bwt_rank prg 4 upper_index
  | _ => 0

/-- `base_next_sa_interval` from search/search.cpp. `uint64_t`
arithmetic, in particular the `- 1` on the end index, is modelled with
an explicit wrap modulo `2^64`. -/
def base_next_sa_interval (next_char : Nat) (next_char_first_sa_index : Nat)
    (current_sa_interval : Nat × Nat) (prg : PRGInfo) : Nat × Nat :=
  let current_sa_start := current_sa_interval.1
  let current_sa_end := current_sa_interval.2
  let sa_start_offset :=
    if current_sa_start ≤ 0 then 0
    else if 4 < next_char then bwt_rank prg next_char current_sa_start
    else dna_bwt_rank current_sa_start next_char prg
  let sa_end_offset :=
    if 4 < next_char then bwt_rank prg next_char (current_sa_end + 1)
    else dna_bwt_rank (current_sa_end + 1) next_char prg
  let new_start := (next_char_first_sa_index + sa_start_offset) % u64
  let new_end := (next_char_first_sa_index + sa_end_offset + (u64 - 1)) % u64
  (new_start, new_end)

/-- `search_fm_index_base_backwards` from search/search.cpp. The
`invalid` search state is `none`; an interval `(i, j)` is invalid when
`i - 1 = j` in `uint64_t` arithmetic. -/
def search_fm_index_base_backwards (pattern_char : Nat) (char_first_sa_index : Nat)
    (search_state : SearchState) (prg : PRGInfo) : Option SearchState :=
  let next_sa_interval :=
    base_next_sa_interval pattern_char char_first_sa_index search_state.sa_interval prg
  let valid_sa_interval := (next_sa_interval.1 + (u64 - 1)) % u64 ≠ next_sa_interval.2
  if valid_sa_interval then
    some { search_state with sa_interval := next_sa_interval }
  else none

/-- `search_base_backwards` from search/search.cpp: compute the first
SA occurrence of `pattern_char` via `C[char2comp[c]]`, extend every
state, and drop the invalid ones. -/
def search_base_backwards (pattern_char : Nat) (search_states : List SearchState)
    (prg : PRGInfo) : List SearchState :=
  let char_first_sa_index := prg.fm_index.C (prg.fm_index.char2comp pattern_char)
  search_states.filterMap
    (fun search_state => search_fm_index_base_backwards pattern_char char_first_sa_index search_state prg)

/-! ### Marker processing (search/search.cpp) -/

/-- `SiteBoundaryMarkerInfo` from search/search.cpp. -/
structure SiteBoundaryMarkerInfo where
  is_start_boundary : Bool
  sa_interval : Nat × Nat
  marker_char : Nat
deriving Repr, DecidableEq

/-- `site_boundary_marker_info` from search/search.cpp: locate the
marker's SA row by one backward-search step, then compare its text
position with the marker's other SA row. -/
def site_boundary_marker_info (marker_char : Nat) (sa_right_of_marker : Nat)
    (prg : PRGInfo) : SiteBoundaryMarkerInfo :=
  let first_sa_index := prg.fm_index.C (prg.fm_index.char2comp marker_char)
  let marker_sa_index_offset :=
    if sa_right_of_marker ≤ 0 then 0 else bwt_rank prg marker_char sa_right_of_marker
  let marker_sa_index := first_sa_index + marker_sa_index_offset
  let marker_text_idx := prg.fm_index.sa marker_sa_index
  let other_marker_text_idx :=
    if marker_sa_index = first_sa_index then prg.fm_index.sa (first_sa_index + 1)
    else prg.fm_index.sa first_sa_index
  { is_start_boundary := marker_text_idx ≤ other_marker_text_idx,
    sa_interval := (marker_sa_index, marker_sa_index),
    marker_char := marker_char }

/-- `get_allele_marker_sa_interval` from search/search.cpp. -/
def get_allele_marker_sa_interval (site_marker_char : Nat) (prg : PRGInfo) : Nat × Nat :=
  let allele_marker_char := site_marker_char + 1
  let start_sa_index := prg.fm_index.C (prg.fm_index.char2comp allele_marker_char)
  let next_boundary_marker := allele_marker_char + 1
  let max_alphabet_char := prg.fm_index.comp2char (prg.fm_index.sigma - 1)
  let end_sa_index :=
    if next_boundary_marker < max_alphabet_char then
      prg.fm_index.C (prg.fm_index.char2comp next_boundary_marker) - 1
    else prg.fm_index.size - 1
  (start_sa_index, end_sa_index)

/-- `get_allele_id` from search/search.cpp: allele id of an allele-marker
SA row, read from the allele mask at the text position just before the
marker. -/
def get_allele_id (allele_marker_sa_index : Nat) (prg : PRGInfo) : Nat :=
  prg.allele_mask (prg.fm_index.sa allele_marker_sa_index - 1)

/-- `get_allele_search_states` from search/search.cpp: one search state
per SA row of the allele-marker interval (the loop body emits exactly one
state per row, so the loop is the map over the row range). -/
def get_allele_search_states (site_boundary_marker : Nat)
    (allele_marker_sa_interval : Nat × Nat) (current_search_state : SearchState)
    (prg : PRGInfo) : List SearchState :=
  (List.range' allele_marker_sa_interval.1
      (allele_marker_sa_interval.2 + 1 - allele_marker_sa_interval.1)).map
    (fun allele_marker_sa_index =>
      { current_search_state with
          sa_interval := (allele_marker_sa_index, allele_marker_sa_index),
          variant_site_state := SearchVariantSiteState.within_variant_site,
          variant_site_path :=
            (site_boundary_marker, get_allele_id allele_marker_sa_index prg)
              :: current_search_state.variant_site_path })

/-- `get_number_of_alleles` from search/search.cpp. -/
def get_number_of_alleles (allele_marker_sa_interval : Nat × Nat) : Nat :=
  (allele_marker_sa_interval.2 - allele_marker_sa_interval.1 + 1) + 1

/-- `get_site_search_state` from search/search.cpp: the state for the
last allele, whose end is the site marker itself. -/
def get_site_search_state (final_allele_id : Nat)
    (boundary_marker_info : SiteBoundaryMarkerInfo)
    (current_search_state : SearchState) : SearchState :=
  { current_search_state with
      sa_interval := boundary_marker_info.sa_interval,
      variant_site_state := SearchVariantSiteState.within_variant_site,
      variant_site_path :=
        (boundary_marker_info.marker_char, final_allele_id)
          :: current_search_state.variant_site_path }

/-- `entering_site_search_states` from search/search.cpp. -/
def entering_site_search_states (boundary_marker_info : SiteBoundaryMarkerInfo)
    (current_search_state : SearchState) (prg : PRGInfo) : List SearchState :=
  let allele_marker_sa_interval :=
    get_allele_marker_sa_interval boundary_marker_info.marker_char prg
  let new_search_states :=
    get_allele_search_states boundary_marker_info.marker_char
      allele_marker_sa_interval current_search_state prg
  let final_allele_id := get_number_of_alleles allele_marker_sa_interval
  new_search_states ++ [get_site_search_state final_allele_id boundary_marker_info current_search_state]

/-- `exiting_site_search_state` from search/search.cpp. -/
def exiting_site_search_state (boundary_marker_info : SiteBoundaryMarkerInfo)
    (current_search_state : SearchState) : SearchState :=
  let path2 :=
    if current_search_state.variant_site_state ≠ SearchVariantSiteState.within_variant_site
        ∧ current_search_state.variant_site_path = [] then
      (boundary_marker_info.marker_char, 1) :: current_search_state.variant_site_path
    else current_search_state.variant_site_path
  { sa_interval := boundary_marker_info.sa_interval,
    variant_site_path := path2,
    variant_site_state := SearchVariantSiteState.outside_variant_site }

/-- `process_boundary_marker` from search/search.cpp. -/
def process_boundary_marker (marker_char : Nat) (sa_right_of_marker : Nat)
    (current_search_state : SearchState) (prg : PRGInfo) : List SearchState :=
  let boundary_marker_info := site_boundary_marker_info marker_char sa_right_of_marker prg
  if boundary_marker_info.is_start_boundary = false then
    entering_site_search_states boundary_marker_info current_search_state prg
  else
    [exiting_site_search_state boundary_marker_info current_search_state]

/-- `process_allele_marker` from search/search.cpp. -/
def process_allele_marker (allele_marker_char : Nat) (sa_right_of_marker : Nat)
    (current_search_state : SearchState) (prg : PRGInfo) : SearchState :=
  let boundary_marker_char := allele_marker_char - 1
  let first_sa_index := prg.fm_index.C (prg.fm_index.char2comp boundary_marker_char)
  let second_sa_index := first_sa_index + 1
  let boundary_start_sa_index :=
    if prg.fm_index.sa first_sa_index < prg.fm_index.sa second_sa_index then first_sa_index
    else second_sa_index
  let path2 :=
    if current_search_state.variant_site_state ≠ SearchVariantSiteState.within_variant_site
        ∧ current_search_state.variant_site_path = [] then
      (boundary_marker_char, prg.allele_mask (prg.fm_index.sa sa_right_of_marker))
        :: current_search_state.variant_site_path
    else current_search_state.variant_site_path
  { sa_interval := (boundary_start_sa_index, boundary_start_sa_index),
    variant_site_path := path2,
    variant_site_state := SearchVariantSiteState.outside_variant_site }

/-! ### Allele-encapsulated finalization (search/search.cpp) -/

/-- `SearchStateCache.flush` (search/search.cpp): an empty cache emits
nothing, a full one emits its single state. -/
def cache_flush (cache : Option SearchState) : List SearchState :=
  match cache with
  | none => []
  | some search_state => [search_state]

/-- The SA-row loop of `handle_allele_encapsulated_state`
(search/search.cpp), over the explicit list of SA rows of the state's
interval, with the `SearchStateCache` as an `Option SearchState`. -/
def handle_allele_encapsulated_loop (prg : PRGInfo) :
    List Nat → Option SearchState → List SearchState
  | [], cache => cache_flush cache
  | sa_index :: rest, cache =>
    let prg_index := prg.fm_index.sa sa_index
    let site_marker := prg.sites_mask prg_index
    let allele_id := prg.allele_mask prg_index
    if site_marker = 0 then
      cache_flush cache ++
        (SearchState.mk (sa_index, sa_index) [] SearchVariantSiteState.outside_variant_site
          :: handle_allele_encapsulated_loop prg rest none)
    else
      match cache with
      | none =>
        handle_allele_encapsulated_loop prg rest
          (some (SearchState.mk (sa_index, sa_index) [(site_marker, allele_id)]
            SearchVariantSiteState.within_variant_site))
      | some cached =>
        if cached.variant_site_path = [(site_marker, allele_id)] then
          handle_allele_encapsulated_loop prg rest
            (some { cached with sa_interval := (cached.sa_interval.1, sa_index) })
        else
          cached :: handle_allele_encapsulated_loop prg rest
            (some (SearchState.mk (sa_index, sa_index) [(site_marker, allele_id)]
              SearchVariantSiteState.within_variant_site))

/-- `handle_allele_encapsulated_state` from search/search.cpp. -/
def handle_allele_encapsulated_state (search_state : SearchState) (prg : PRGInfo) :
    List SearchState :=
  handle_allele_encapsulated_loop prg
    (List.range' search_state.sa_interval.1
      (search_state.sa_interval.2 + 1 - search_state.sa_interval.1)) none

/-- `handle_allele_encapsulated_states` from search/search.cpp. -/
def handle_allele_encapsulated_states (search_states : List SearchState) (prg : PRGInfo) :
    List SearchState :=
  search_states.flatMap
    (fun search_state =>
      if search_state.variant_site_path = [] then
        handle_allele_encapsulated_state search_state prg
      else [search_state])

/-- The `(sites_mask[SA[i]], allele_mask[SA[i]])` locus of an SA row. -/
def row_locus (prg : PRGInfo) (sa_index : Nat) : Nat × Nat :=
  (prg.sites_mask (prg.fm_index.sa sa_index), prg.allele_mask (prg.fm_index.sa sa_index))

/-- Spec-side helper: extend a run of consecutive SA rows sharing the
locus `(site, allele)`; returns the last row of the run and the
remaining rows. -/
def run_extent (prg : PRGInfo) (site allele : Nat) (last : Nat) :
    List Nat → Nat × List Nat
  | [] => (last, [])
  | j :: rest =>
    if row_locus prg j = (site, allele) then run_extent prg site allele j rest
    else (last, j :: rest)

theorem run_extent_rest_length (prg : PRGInfo) (site allele : Nat) :
    ∀ (rows : List Nat) (last : Nat), (run_extent prg site allele last rows).2.length ≤ rows.length := by
  intro rows
  induction rows with
  | nil => intro last; simp [run_extent]
  | cons j rest ih =>
    intro last
    simp only [run_extent]
    by_cases h : row_locus prg j = (site, allele)
    · simp only [h, if_pos rfl]
      exact Nat.le_trans (ih j) (Nat.le_succ _)
    · simp [h]

/-- Spec-side definition, following the spec's words for
allele-encapsulated finalization: scan the SA rows in order; a row whose
PRG position is outside any site yields a singleton state with empty
path; a maximal run of consecutive rows sharing the same
`(sites_mask[SA[i]], allele_mask[SA[i]])` locus yields exactly one state
with that single-locus path and the run's SA interval. -/
def coalesce_locus_runs (prg : PRGInfo) : List Nat → List SearchState
  | [] => []
  | i :: rest =>
    let locus := row_locus prg i
    if locus.1 = 0 then
      SearchState.mk (i, i) [] SearchVariantSiteState.outside_variant_site
        :: coalesce_locus_runs prg rest
    else
      let extent := run_extent prg locus.1 locus.2 i rest
      SearchState.mk (i, extent.1) [(locus.1, locus.2)] SearchVariantSiteState.within_variant_site
        :: coalesce_locus_runs prg extent.2
termination_by rows => rows.length
decreasing_by
  all_goals first
    | exact Nat.lt_succ_of_le (Nat.le_refl _)
    | exact Nat.lt_succ_of_le (run_extent_rest_length _ _ _ _ _)

/-! ### Coverage recording (quasimap/coverage/allele_base.cpp) -/

/-- The coverage state at quasimap time. `allele_base_counts` is the
per-site per-allele per-base saturating `u16` tensor (values, addressed
by `(site_idx, allele_idx, base_idx)`), `allele_base_sizes` the fixed
allele lengths laid out at build time (never mutated by recording).
`allele_sum_counts` and `grouped_counts` are the other two coverage
structures of the data model (their recorders are not under src/ and are
modelled from the spec below). -/
structure Coverage where
  allele_base_counts : Nat → Nat → Nat → Nat
  allele_base_sizes : Nat → Nat → Nat
  allele_sum_counts : Nat → Nat → Nat
  grouped_counts : Nat → Finset Nat → Nat

/-- `SitesCoverageBoundaries`: the per-read transient
`seen[(site, allele)] = end_offset` map. -/
def SitesCoverageBoundaries : Type := Nat × Nat → Option Nat

/-- One saturating `u16` increment (the loop body of
`set_site_base_coverage`: skip the increment at `UINT16_MAX`). -/
def sat_inc (v : Nat) : Nat := if v = 65535 then v else v + 1

/-- `set_site_base_coverage` from quasimap/coverage/allele_base.cpp.
Returns the updated coverage, the updated boundaries map, and
`count_bases_consumed`. The increment loop over
`[index_start_boundary, index_end_boundary)` touches each base cell at
most once, so it is the pointwise conditional saturating increment. -/
def set_site_base_coverage (coverage : Coverage) (sites_coverage_boundaries : SitesCoverageBoundaries)
    (path_element : Nat × Nat) (allele_coverage_offset max_bases_to_set : Nat) :
    Coverage × SitesCoverageBoundaries × Nat :=
  let marker := path_element.1
  let min_boundary_marker := 5
  let variant_site_coverage_index := (marker - min_boundary_marker) / 2
  let allele_id := path_element.2
  let allele_coverage_index := allele_id - 1
  let allele_size := coverage.allele_base_sizes variant_site_coverage_index allele_coverage_index
  let index_end_boundary := min (allele_coverage_offset + max_bases_to_set) allele_size
  let count_bases_consumed := index_end_boundary - allele_coverage_offset
  let index_start_boundary :=
    match sites_coverage_boundaries path_element with
    | some previous_end => max allele_coverage_offset previous_end
    | none => allele_coverage_offset
  let boundaries2 : SitesCoverageBoundaries :=
    fun key => if key = path_element then some index_end_boundary else sites_coverage_boundaries key
  let counts2 : Nat → Nat → Nat → Nat := fun s a i =>
    if s = variant_site_coverage_index ∧ a = allele_coverage_index
        ∧ index_start_boundary ≤ i ∧ i < index_end_boundary then
      sat_inc (coverage.allele_base_counts s a i)
    else coverage.allele_base_counts s a i
  ({ coverage with allele_base_counts := counts2 }, boundaries2, count_bases_consumed)

/-- `allele_start_offset_index` from quasimap/coverage/allele_base.cpp. -/
def allele_start_offset_index (within_allele_prg_index : Nat) (prg : PRGInfo) : Nat :=
  within_allele_prg_index
    - prg.prg_markers_select (prg.prg_markers_rank within_allele_prg_index) - 1

/-- `site_marker_prg_indexes` from quasimap/coverage/allele_base.cpp. -/
def site_marker_prg_indexes (site_marker : Nat) (prg : PRGInfo) : Nat × Nat :=
  let first_sa_index := prg.fm_index.C (prg.fm_index.char2comp site_marker)
  let second_sa_index := first_sa_index + 1
  let first_prg_index := prg.fm_index.sa first_sa_index
  let second_prg_index := prg.fm_index.sa second_sa_index
  if first_prg_index < second_prg_index then (first_prg_index, second_prg_index)
  else (second_prg_index, first_prg_index)

/-- The `while (read_bases_consumed < read_length and path_it != last_path_it)`
loop of `sa_index_allele_base_coverage` (quasimap/coverage/allele_base.cpp),
threading coverage, boundaries, `read_bases_consumed`,
`last_site_prg_start_end` and `site_prg_start_end`. -/
def sa_abc_loop (prg : PRGInfo) (read_length : Nat) :
    List (Nat × Nat) → Coverage → SitesCoverageBoundaries → Nat → Nat × Nat → Nat × Nat →
    Coverage × SitesCoverageBoundaries
  | [], coverage, boundaries, _, _, _ => (coverage, boundaries)
  | path_element :: rest, coverage, boundaries, read_bases_consumed,
      last_site_prg_start_end, site_prg_start_end =>
    if read_length ≤ read_bases_consumed then (coverage, boundaries)
    else
      let site_se2 :=
        if last_site_prg_start_end.1 ≠ 0 then site_marker_prg_indexes path_element.1 prg
        else site_prg_start_end
      let consumed2 :=
        if last_site_prg_start_end.1 ≠ 0 then
          read_bases_consumed + (site_se2.1 - last_site_prg_start_end.2 - 1)
        else read_bases_consumed
      let step := set_site_base_coverage coverage boundaries path_element 0 (read_length - consumed2)
      sa_abc_loop prg read_length rest step.1 step.2.1 (consumed2 + step.2.2) site_se2 site_se2

/-- `sa_index_allele_base_coverage` from quasimap/coverage/allele_base.cpp.
The caller only passes states with a non-empty path (the C++ dereferences
the first path element unconditionally); an empty path leaves the
coverage unchanged. -/
def sa_index_allele_base_coverage (coverage : Coverage) (boundaries : SitesCoverageBoundaries)
    (sa_index read_length : Nat) (search_state : SearchState) (prg : PRGInfo) :
    Coverage × SitesCoverageBoundaries :=
  let read_start_index := prg.fm_index.sa sa_index
  let start_site_marker := prg.sites_mask read_start_index
  match search_state.variant_site_path with
  | [] => (coverage, boundaries)
  | path_element :: rest =>
    if start_site_marker ≠ 0 then
      let last_site_prg_start_end := site_marker_prg_indexes path_element.1 prg
      let allele_coverage_offset := allele_start_offset_index read_start_index prg
      let step := set_site_base_coverage coverage boundaries path_element
        allele_coverage_offset (read_length - 0)
      sa_abc_loop prg read_length rest step.1 step.2.1 (0 + step.2.2)
        last_site_prg_start_end (0, 0)
    else
      let site_prg_start_end := site_marker_prg_indexes path_element.1 prg
      let read_bases_consumed := site_prg_start_end.1 - read_start_index
      sa_abc_loop prg read_length (path_element :: rest) coverage boundaries
        read_bases_consumed (0, 0) site_prg_start_end

/-- The inner SA-row loop of `coverage::record::allele_base`
(quasimap/coverage/allele_base.cpp). -/
def record_sa_range (prg : PRGInfo) (read_length : Nat) (search_state : SearchState) :
    List Nat → Coverage → SitesCoverageBoundaries → Coverage × SitesCoverageBoundaries
  | [], coverage, boundaries => (coverage, boundaries)
  | sa_index :: rest, coverage, boundaries =>
    let step := sa_index_allele_base_coverage coverage boundaries sa_index read_length
      search_state prg
    record_sa_range prg read_length search_state rest step.1 step.2

/-- The state loop of `coverage::record::allele_base`
(quasimap/coverage/allele_base.cpp). -/
def record_allele_base_states (prg : PRGInfo) (read_length : Nat) :
    List SearchState → Coverage → SitesCoverageBoundaries → Coverage × SitesCoverageBoundaries
  | [], coverage, boundaries => (coverage, boundaries)
  | search_state :: rest, coverage, boundaries =>
    if search_state.variant_site_path = [] then
      record_allele_base_states prg read_length rest coverage boundaries
    else
      let step := record_sa_range prg read_length search_state
        (List.range' search_state.sa_interval.1
          (search_state.sa_interval.2 + 1 - search_state.sa_interval.1))
        coverage boundaries
      record_allele_base_states prg read_length rest step.1 step.2

/-- `coverage::record::allele_base` from quasimap/coverage/allele_base.cpp:
a fresh (empty) `SitesCoverageBoundaries` map per recorded read. -/
def record_allele_base (coverage : Coverage) (search_states : List SearchState)
    (read_length : Nat) (prg : PRGInfo) : Coverage :=
  (record_allele_base_states prg read_length search_states coverage (fun _ => none)).1

/-- Site index and allele index of a variant locus, per the layout used
throughout the coverage recorder: `site_idx = (marker - 5) / 2`,
`allele_idx = allele_id - 1`. -/
def locus_site_index (path_element : Nat × Nat) : Nat := (path_element.1 - 5) / 2

def locus_allele_index (path_element : Nat × Nat) : Nat := path_element.2 - 1

/-- Modelled from the spec: the allele-sum recorder
(quasimap/coverage/allele_sum.cpp is not under src/). "For each state
whose path is non-empty, increment `counts[site_idx][allele_idx] += 1`
for every locus on the path." This counts, per `(site_idx, allele_idx)`
cell, the loci contributed by the read's states. -/
def allele_sum_hits (search_states : List SearchState) (s a : Nat) : Nat :=
  (search_states.map (fun st =>
    if st.variant_site_path = [] then 0
    else (st.variant_site_path.filter (fun pe =>
      locus_site_index pe = s ∧ locus_allele_index pe = a)).length)).sum

/-- Modelled from the spec: applying the allele-sum recorder for one read. -/
def record_allele_sum (coverage : Coverage) (search_states : List SearchState) : Coverage :=
  { coverage with
      allele_sum_counts := fun s a =>
        coverage.allele_sum_counts s a + allele_sum_hits search_states s a }

/-- Modelled from the spec: the set of site markers traversed by the
read's search states (grouped-allele-counts recorder,
quasimap/coverage/grouped_allele_counts.cpp is not under src/). -/
def grouped_sites (search_states : List SearchState) : Finset Nat :=
  search_states.foldr
    (fun st acc => st.variant_site_path.foldr (fun pe a2 => insert pe.1 a2) acc) ∅

/-- Modelled from the spec: the set of allele ids the read's states
passed through at a given site. -/
def grouped_alleles_at (search_states : List SearchState) (site : Nat) : Finset Nat :=
  search_states.foldr
    (fun st acc => st.variant_site_path.foldr
      (fun pe a2 => if pe.1 = site then insert pe.2 a2 else a2) acc) ∅

/-- Modelled from the spec: the grouped-allele-counts recorder for one
read. "For each site independently, collect the set of allele ids that
the read's search states passed through; increment
`group[site][set] += 1`." -/
def record_grouped_allele_counts (coverage : Coverage) (search_states : List SearchState) :
    Coverage :=
  { coverage with
      grouped_counts := fun site allele_ids =>
        if site ∈ grouped_sites search_states
            ∧ allele_ids = grouped_alleles_at search_states site then
          coverage.grouped_counts site allele_ids + 1
        else coverage.grouped_counts site allele_ids }

/-- One read's resolved mapping, as consumed by the coverage recorders:
its final search states and its length. The read-to-states pipeline is
deterministic over the immutable PRG structures, so read order only
matters through the order these are recorded in. -/
structure ReadDatum where
  states : List SearchState
  read_length : Nat

/-- Recording one read into all three coverage structures. -/
def record_read (prg : PRGInfo) (coverage : Coverage) (r : ReadDatum) : Coverage :=
  record_grouped_allele_counts
    (record_allele_sum (record_allele_base coverage r.states r.read_length prg) r.states)
    r.states

/-! ### Concrete instances used by witnesses and counterexamples -/

/-- A small concrete suffix-array access function: marker 5's two SA rows
(rows 5 and 6) have text positions 9 and 2, so row 5 is the site's end
occurrence. -/
def toySa : Nat → Nat := fun i =>
  match i with
  | 5 => 9
  | 6 => 2
  | 7 => 3
  | _ => i + 1

/-- A small concrete FM-index instance. -/
def toyFm : FMIndex :=
  { sa := toySa, bwt := [1, 2, 1, 4], char2comp := fun c => c, comp2char := fun c => c,
    C := fun c => c, sigma := 9, size := 12 }

/-- A small concrete `PRG_Info` instance. -/
def toyPrgInfo : PRGInfo :=
  { fm_index := toyFm, sites_mask := fun _ => 5, allele_mask := fun _ => 1,
    prg_markers_rank := fun i => i, prg_markers_select := fun i => i }

/-! ### C5 -/

/-- Claim C5: the claim states that PRG encoding fails with
`InvalidEncoding` on any non-DNA, non-digit byte. The code does not
fail: `encode_char`'s default case treats every non-DNA byte as a digit
(`(uint32_t) c - '0'`), so `encode_prg` silently produces an encoded
PRG. On the payload "z" (byte 122, neither DNA nor digit) the encoder
succeeds and emits the garbage marker 74 = 122 - 48; on "aza" it emits
`[1, 74, 1]`. -/
theorem c5_encode_prg_accepts_invalid_byte :
    (encode_char 122).is_dna = false
    ∧ encode_prg [122] = [74]
    ∧ encode_prg [97, 122, 97] = [1, 74, 1] := by
  decide

/-! ### C9 -/

/-- Claim C9: the claim states that `next_kmer`'s decrement loop
terminates as soon as its index falls below zero and that every access
`current_kmer[max_update_index]` uses an index in `[0, kmer_size)`. The
code's loop `while (current_kmer[max_update_index] == 4)` has no lower
bound check, so on the all-4 kmer `[4, 4]` (kmer_size = 2) the loop
reads index 1, index 0, and then index `-1` — an out-of-bounds access,
refuting the in-range property on the code as written. -/
theorem c9_next_kmer_reads_index_minus_one :
    next_kmer_accesses [4, 4] 2 = [1, 0, -1]
    ∧ (-1 : Int) ∈ next_kmer_accesses [4, 4] 2
    ∧ ¬ (0 : Int) ≤ -1 := by
  decide

/-! ### C6 -/

theorem masks_go_nonzero_iff :
    ∀ (prg : List Nat) (cur id2 : Nat) (within : Bool),
      (within = true → cur ≠ 0) → 1 ≤ id2 → ∀ i,
      (generate_sites_mask_go prg cur within).getD i 0 ≠ 0
        ↔ (generate_allele_mask_go prg id2 within).getD i 0 ≠ 0 := by
  intro prg
  induction prg with
  | nil =>
    intro cur id2 within hcur hid i
    simp [generate_sites_mask_go, generate_allele_mask_go]
  | cons c rest ih =>
    intro cur id2 within hcur hid i
    simp only [generate_sites_mask_go, generate_allele_mask_go]
    cases i with
    | zero =>
      split_ifs with h1 h2 h3 h4 <;> first
        | (simp_all; omega)
        | simp_all
    | succ j =>
      split_ifs with h1 h2 h3 h4 <;> simp only [List.getD_cons_succ]
      · exact ih c 1 true (fun _ => by omega) (by omega) j
      · exact ih cur id2 false (fun h => by cases h) hid j
      · exact ih cur id2 within hcur hid j
      · exact ih cur (id2 + 1) within hcur (by omega) j
      · exact ih cur id2 within hcur hid j

/-- Claim C6: for every encoded PRG and every position `i`, the sites
mask and the allele mask are non-zero at exactly the same positions:
`sites_mask[i] ≠ 0 ↔ allele_mask[i] ≠ 0`. Both builders run the same
boundary state machine; the sites mask writes the current (odd, hence
non-zero) site marker and the allele mask writes the current allele id
(which starts at 1 and only grows) at exactly the within-allele
positions. -/
theorem c6_sites_allele_mask_nonzero_iff (encoded_prg : List Nat) (i : Nat) :
    (generate_sites_mask encoded_prg).getD i 0 ≠ 0
      ↔ (generate_allele_mask encoded_prg).getD i 0 ≠ 0 :=
  masks_go_nonzero_iff encoded_prg 0 1 false (fun h => by cases h) (by omega) i

/-! ### C3 -/

/-- A state that entered marker processing already flagged as
`within_variant_site` but with an empty path. -/
def c3State : SearchState :=
  { sa_interval := (0, 0), variant_site_path := [],
    variant_site_state := SearchVariantSiteState.within_variant_site }

/-- Claim C3, counterexample: the claim says the locus `(m-1, allele_id)`
is prepended "if and only if the state's path is empty". For the state
`c3State` (empty path but `site_state = within_variant_site`) and allele
marker 6, the code leaves the path empty — `process_allele_marker` only
prepends when, additionally, the state's `variant_site_state` differs
from `within_variant_site` (the `check_required` guard) — although the
claim-side locus here would be `(5, allele_mask[SA[1]]) = (5, 1)`. -/
theorem c3_counterexample :
    c3State.variant_site_path = []
    ∧ toyPrgInfo.allele_mask (toyPrgInfo.fm_index.sa 1) = 1
    ∧ (process_allele_marker 6 1 c3State toyPrgInfo).variant_site_path ≠ [(5, 1)]
    ∧ (process_allele_marker 6 1 c3State toyPrgInfo).variant_site_path = [] := by
  decide

/-- Claim C3 (amended): for every search state whose SA interval contains
a BWT row holding an even (allele) marker `m`, marker processing emits
exactly one state: its SA interval is the singleton at the start-side SA
row of site marker `m-1` (whichever of that marker's two SA rows has
the smaller suffix-array value), its `site_state` becomes
`outside_variant_site`, and the locus `(m-1, allele_id)` — with
`allele_id` read from the allele mask at the PRG position of the row to
the right of the marker — is prepended to the path if and only if the
state's path is empty AND its `site_state` differs from
`within_variant_site`. -/
theorem c3_process_allele_marker_characterization
    (allele_marker_char sa_right_of_marker : Nat) (s : SearchState) (prg : PRGInfo) :
    process_allele_marker allele_marker_char sa_right_of_marker s prg
      = { sa_interval :=
            (if prg.fm_index.sa (prg.fm_index.C (prg.fm_index.char2comp (allele_marker_char - 1)))
                  < prg.fm_index.sa (prg.fm_index.C (prg.fm_index.char2comp (allele_marker_char - 1)) + 1)
              then prg.fm_index.C (prg.fm_index.char2comp (allele_marker_char - 1))
              else prg.fm_index.C (prg.fm_index.char2comp (allele_marker_char - 1)) + 1,
             if prg.fm_index.sa (prg.fm_index.C (prg.fm_index.char2comp (allele_marker_char - 1)))
                  < prg.fm_index.sa (prg.fm_index.C (prg.fm_index.char2comp (allele_marker_char - 1)) + 1)
              then prg.fm_index.C (prg.fm_index.char2comp (allele_marker_char - 1))
              else prg.fm_index.C (prg.fm_index.char2comp (allele_marker_char - 1)) + 1),
          variant_site_path :=
            if s.variant_site_state ≠ SearchVariantSiteState.within_variant_site
                ∧ s.variant_site_path = [] then
              (allele_marker_char - 1, prg.allele_mask (prg.fm_index.sa sa_right_of_marker))
                :: s.variant_site_path
            else s.variant_site_path,
          variant_site_state := SearchVariantSiteState.outside_variant_site } := by
  rfl

/-! ### C8 -/

/-- Zeroed coverage over a single site with a single allele of length 5. -/
def c8Coverage : Coverage :=
  { allele_base_counts := fun _ _ _ => 0, allele_base_sizes := fun _ _ => 5,
    allele_sum_counts := fun _ _ => 0, grouped_counts := fun _ _ => 0 }

/-- The empty per-read boundaries map. -/
def c8Bounds0 : SitesCoverageBoundaries := fun _ => none

/-- First hit of locus (5,1) within one read: offset 2, 3 bases. -/
def c8Hit1 : Coverage × SitesCoverageBoundaries × Nat :=
  set_site_base_coverage c8Coverage c8Bounds0 (5, 1) 2 3

/-- Second hit of locus (5,1): offset 0, 3 bases (records end offset 3,
lowering the boundary from 5). -/
def c8Hit2 : Coverage × SitesCoverageBoundaries × Nat :=
  set_site_base_coverage c8Hit1.1 c8Hit1.2.1 (5, 1) 0 3

/-- Third hit of locus (5,1): offset 0, 5 bases. -/
def c8Hit3 : Coverage × SitesCoverageBoundaries × Nat :=
  set_site_base_coverage c8Hit2.1 c8Hit2.2.1 (5, 1) 0 5

/-- Claim C8, counterexample: the claim concludes that "no base of an
allele is incremented twice for a single read". Within one read's
boundaries map, the hit sequence (offset 2, 3 bases), (offset 0, 3
bases), (offset 0, 5 bases) on an allele of length 5 increments base 3
twice: the first hit covers [2,5) and records end 5, the second covers
nothing but lowers the recorded end to 3, and the third covers [3,5)
again. -/
theorem c8_counterexample :
    c8Coverage.allele_base_counts 0 0 3 = 0
    ∧ c8Hit1.1.allele_base_counts 0 0 3 = 1
    ∧ c8Hit3.1.allele_base_counts 0 0 3 = 2 := by
  decide

/-- Claim C8 (amended): within the recording of one read's search
states, when the same variant locus `(site, allele)` is hit more than
once, every subsequent hit increments only base positions at or past the
end offset recorded by the immediately preceding hit of that locus (the
per-read `seen[(site, allele)] = end_offset` map); since a later hit can
record a smaller end offset than an earlier one, a base of an allele may
nevertheless be incremented twice for a single read. Formally: if the
boundaries map already records `prev_end` for the locus, the hit leaves
every base cell with index below `prev_end` unchanged. -/
theorem c8_hits_respect_recorded_end (coverage : Coverage)
    (boundaries : SitesCoverageBoundaries) (path_element : Nat × Nat)
    (allele_coverage_offset max_bases_to_set prev_end : Nat)
    (hseen : boundaries path_element = some prev_end) :
    ∀ s a i, i < prev_end →
      (set_site_base_coverage coverage boundaries path_element
          allele_coverage_offset max_bases_to_set).1.allele_base_counts s a i
        = coverage.allele_base_counts s a i := by
  intro s a i hi
  simp only [set_site_base_coverage, hseen]
  split_ifs with h
  · exfalso
    obtain ⟨-, -, h3, -⟩ := h
    exact absurd hi (not_lt.mpr (le_trans (le_max_right allele_coverage_offset prev_end) h3))
  · rfl

/-- Witness for the amended C8 theorem: with the boundaries map recording
end offset 4 for locus (5,1), a later hit covering from offset 0 leaves
base 3 unchanged. -/
def c8Bounds1 : SitesCoverageBoundaries := fun key => if key = (5, 1) then some 4 else none

theorem c8_hits_respect_recorded_end_witness :
    (set_site_base_coverage c8Coverage c8Bounds1 (5, 1) 0 5).1.allele_base_counts 0 0 3
      = c8Coverage.allele_base_counts 0 0 3 :=
  c8_hits_respect_recorded_end c8Coverage c8Bounds1 (5, 1) 0 5 4 (by decide) 0 0 3 (by decide)

/-! ### C2 -/

/-- Claim C2: for every search state whose SA interval contains a BWT row
holding an odd site marker `m` whose SA position is the site's end
(`is_start_boundary = false`), marker processing emits exactly one new
state per allele of the site: for each row `j` in the full SA interval
of the allele marker `m+1`, a state with singleton SA interval `[j, j]`
and path prepended by `(m, allele_id(j))` where
`allele_id(j) = allele_mask[SA[j] - 1]`, plus one final state with
singleton SA interval at the site marker's own SA row and allele id
equal to the number of allele-marker rows plus one. The hypothesis
`hlo` states that the allele-marker SA interval is non-empty (the site
has at least one allele separator). -/
theorem c2_entering_site_emits_one_state_per_allele
    (marker_char sa_right_of_marker : Nat) (s : SearchState) (prg : PRGInfo)
    (hend : (site_boundary_marker_info marker_char sa_right_of_marker prg).is_start_boundary = false)
    (hlo : (get_allele_marker_sa_interval marker_char prg).1
             ≤ (get_allele_marker_sa_interval marker_char prg).2) :
    process_boundary_marker marker_char sa_right_of_marker s prg
      = (List.range' (get_allele_marker_sa_interval marker_char prg).1
            ((get_allele_marker_sa_interval marker_char prg).2 + 1
              - (get_allele_marker_sa_interval marker_char prg).1)).map
          (fun j =>
            { s with sa_interval := (j, j),
                     variant_site_path :=
                       (marker_char, prg.allele_mask (prg.fm_index.sa j - 1))
                         :: s.variant_site_path,
                     variant_site_state := SearchVariantSiteState.within_variant_site })
        ++ [{ s with
                sa_interval :=
                  (site_boundary_marker_info marker_char sa_right_of_marker prg).sa_interval,
                variant_site_path :=
                  (marker_char,
                    ((get_allele_marker_sa_interval marker_char prg).2 + 1
                      - (get_allele_marker_sa_interval marker_char prg).1) + 1)
                    :: s.variant_site_path,
                variant_site_state := SearchVariantSiteState.within_variant_site }] := by
  have hmarker : (site_boundary_marker_info marker_char sa_right_of_marker prg).marker_char
      = marker_char := rfl
  have hnum : get_number_of_alleles (get_allele_marker_sa_interval marker_char prg)
      = ((get_allele_marker_sa_interval marker_char prg).2 + 1
          - (get_allele_marker_sa_interval marker_char prg).1) + 1 := by
    unfold get_number_of_alleles
    omega
  simp only [process_boundary_marker, hend, if_pos, entering_site_search_states,
    get_allele_search_states, get_site_search_state, hnum, hmarker, get_allele_id]

/-- Witness for C2 on the concrete instance: marker 5 is an end boundary
(its SA row 5 has text position 9, the other row has 2), the allele
marker 6 has the single SA row 6, whose allele id is
`allele_mask[SA[6] - 1] = 1`; one state per allele-marker row plus the
final state with allele id 2 at the marker's own row 5. -/
theorem c2_entering_site_witness :
    process_boundary_marker 5 0
        { sa_interval := (0, 3), variant_site_path := [],
          variant_site_state := SearchVariantSiteState.unknown } toyPrgInfo
      = [{ sa_interval := (6, 6), variant_site_path := [(5, 1)],
           variant_site_state := SearchVariantSiteState.within_variant_site },
         { sa_interval := (5, 5), variant_site_path := [(5, 2)],
           variant_site_state := SearchVariantSiteState.within_variant_site }] := by
  have h := c2_entering_site_emits_one_state_per_allele 5 0
    { sa_interval := (0, 3), variant_site_path := [],
      variant_site_state := SearchVariantSiteState.unknown } toyPrgInfo
    (by decide) (by decide)
  exact h.trans (by decide)


/-! ### C1 -/

theorem bwt_rank_mono (prg : PRGInfo) (c : Nat) {i j : Nat} (h : i ≤ j) :
    bwt_rank prg c i ≤ bwt_rank prg c j := by
  obtain ⟨k, rfl⟩ := Nat.exists_eq_add_of_le h
  unfold bwt_rank
  rw [List.take_add, List.count_append]
  omega

theorem dna_bwt_rank_eq_bwt_rank (i c : Nat) (prg : PRGInfo)
    (h1 : 1 ≤ c) (h2 : c ≤ 4) : dna_bwt_rank i c prg = bwt_rank prg c i := by
  interval_cases c <;> rfl

theorem u64_value : u64 = 18446744073709551616 := by norm_num [u64]

theorem u64_pred_mod (x : Nat) (hx : x < u64) :
    (x + (u64 - 1)) % u64 = if x = 0 then u64 - 1 else x - 1 := by
  have h64 : 0 < u64 := by rw [u64_value]; omega
  by_cases h : x = 0
  · subst h
    simp only [Nat.zero_add, if_pos rfl]
    exact Nat.mod_eq_of_lt (by omega)
  · have hsplit : x + (u64 - 1) = (x - 1) + 1 * u64 := by omega
    rw [hsplit, Nat.add_mul_mod_self_right, Nat.mod_eq_of_lt (by omega), if_neg h]

theorem base_next_sa_interval_eq (pattern_char cf lo hi : Nat) (prg : PRGInfo)
    (h1 : 1 ≤ pattern_char) (h4 : pattern_char ≤ 4)
    (hbound : cf + bwt_rank prg pattern_char (hi + 1) < u64)
    (hmono : bwt_rank prg pattern_char lo ≤ bwt_rank prg pattern_char (hi + 1)) :
    base_next_sa_interval pattern_char cf (lo, hi) prg
      = (cf + bwt_rank prg pattern_char lo,
         if cf + bwt_rank prg pattern_char (hi + 1) = 0 then u64 - 1
         else cf + bwt_rank prg pattern_char (hi + 1) - 1) := by
  have hnot4 : ¬ (4 < pattern_char) := by omega
  have hz : bwt_rank prg pattern_char 0 = 0 := rfl
  unfold base_next_sa_interval
  simp only [if_neg hnot4, dna_bwt_rank_eq_bwt_rank _ _ _ h1 h4]
  have hstart : (if lo ≤ 0 then 0 else bwt_rank prg pattern_char lo)
      = bwt_rank prg pattern_char lo := by
    split_ifs with h0
    · have hlo0 : lo = 0 := by omega
      rw [hlo0, hz]
    · rfl
  rw [hstart, Nat.mod_eq_of_lt (by omega), u64_pred_mod _ hbound]

/-- Claim C1: for every search state `s` whose SA interval `[lo, hi]` is
non-empty and every DNA base `c` in 1..4, Phase B (DNA) backward
extension computes `next_lo = C[c] + rank_bwt(c, lo)` and
`next_hi = C[c] + rank_bwt(c, hi + 1) - 1`; the state is dropped exactly
when `next_lo > next_hi` (over the integers, where `next_hi` may be
`-1`), and otherwise is emitted with the new interval while its
variant-site path and its `site_state` are left unchanged. The
hypothesis `hbound` says the FM-index values stay below `2^64` (they
are bounded by the text size in any real index), so the `uint64_t`
arithmetic does not wrap on the non-negative quantities. -/
theorem c1_base_backward_extension (pattern_char : Nat) (s : SearchState) (prg : PRGInfo)
    (hne : s.sa_interval.1 ≤ s.sa_interval.2)
    (hdna1 : 1 ≤ pattern_char) (hdna4 : pattern_char ≤ 4)
    (hbound : prg.fm_index.C (prg.fm_index.char2comp pattern_char)
        + bwt_rank prg pattern_char (s.sa_interval.2 + 1) < u64) :
    (search_fm_index_base_backwards pattern_char
        (prg.fm_index.C (prg.fm_index.char2comp pattern_char)) s prg
      = if bwt_rank prg pattern_char s.sa_interval.1
            = bwt_rank prg pattern_char (s.sa_interval.2 + 1) then none
        else some { s with sa_interval :=
          (prg.fm_index.C (prg.fm_index.char2comp pattern_char)
              + bwt_rank prg pattern_char s.sa_interval.1,
           prg.fm_index.C (prg.fm_index.char2comp pattern_char)
              + bwt_rank prg pattern_char (s.sa_interval.2 + 1) - 1) })
    ∧ (bwt_rank prg pattern_char s.sa_interval.1
          = bwt_rank prg pattern_char (s.sa_interval.2 + 1)
        ↔ ((prg.fm_index.C (prg.fm_index.char2comp pattern_char) : Int)
             + (bwt_rank prg pattern_char s.sa_interval.1 : Int)
            > (prg.fm_index.C (prg.fm_index.char2comp pattern_char) : Int)
             + (bwt_rank prg pattern_char (s.sa_interval.2 + 1) : Int) - 1)) := by
  have hmono : bwt_rank prg pattern_char s.sa_interval.1
      ≤ bwt_rank prg pattern_char (s.sa_interval.2 + 1) :=
    bwt_rank_mono prg pattern_char (by omega)
  refine ⟨?_, by omega⟩
  have hlo_lt : prg.fm_index.C (prg.fm_index.char2comp pattern_char)
      + bwt_rank prg pattern_char s.sa_interval.1 < u64 := by omega
  unfold search_fm_index_base_backwards
  have hint : s.sa_interval = (s.sa_interval.1, s.sa_interval.2) := rfl
  rw [hint, base_next_sa_interval_eq _ _ _ _ _ hdna1 hdna4 hbound hmono]
  simp only [u64_pred_mod _ hlo_lt]
  by_cases heq : bwt_rank prg pattern_char s.sa_interval.1
      = bwt_rank prg pattern_char (s.sa_interval.2 + 1)
  · rw [if_pos heq]
    have hnv : ¬ ((if prg.fm_index.C (prg.fm_index.char2comp pattern_char)
            + bwt_rank prg pattern_char s.sa_interval.1 = 0 then u64 - 1
          else prg.fm_index.C (prg.fm_index.char2comp pattern_char)
            + bwt_rank prg pattern_char s.sa_interval.1 - 1)
        ≠ (if prg.fm_index.C (prg.fm_index.char2comp pattern_char)
            + bwt_rank prg pattern_char (s.sa_interval.2 + 1) = 0 then u64 - 1
          else prg.fm_index.C (prg.fm_index.char2comp pattern_char)
            + bwt_rank prg pattern_char (s.sa_interval.2 + 1) - 1)) := by
      rw [heq]
      simp
    rw [if_neg hnv]
  · rw [if_neg heq]
    have hrhi_pos : 1 ≤ bwt_rank prg pattern_char (s.sa_interval.2 + 1) := by omega
    have hBz : ¬ (prg.fm_index.C (prg.fm_index.char2comp pattern_char)
        + bwt_rank prg pattern_char (s.sa_interval.2 + 1) = 0) := by omega
    rw [if_neg hBz]
    have hu64 := u64_value
    have hv : (if prg.fm_index.C (prg.fm_index.char2comp pattern_char)
            + bwt_rank prg pattern_char s.sa_interval.1 = 0 then u64 - 1
          else prg.fm_index.C (prg.fm_index.char2comp pattern_char)
            + bwt_rank prg pattern_char s.sa_interval.1 - 1)
        ≠ prg.fm_index.C (prg.fm_index.char2comp pattern_char)
            + bwt_rank prg pattern_char (s.sa_interval.2 + 1) - 1 := by
      split_ifs with hz1
      · omega
      · omega
    rw [if_pos hv]

/-- Witness for C1 on the concrete instance: extending the state with
interval [0, 2] by base 1 (whose first SA index is C[1] = 1 and whose
BWT prefix counts are rank(1,0) = 0 and rank(1,3) = 2) emits the state
with interval [1, 2], path and site-state unchanged. -/
theorem c1_base_backward_extension_witness :
    search_fm_index_base_backwards 1
        (toyPrgInfo.fm_index.C (toyPrgInfo.fm_index.char2comp 1))
        { sa_interval := (0, 2), variant_site_path := [],
          variant_site_state := SearchVariantSiteState.unknown } toyPrgInfo
      = some { sa_interval := (1, 2), variant_site_path := [],
               variant_site_state := SearchVariantSiteState.unknown } := by
  have h := (c1_base_backward_extension 1
    { sa_interval := (0, 2), variant_site_path := [],
      variant_site_state := SearchVariantSiteState.unknown } toyPrgInfo
    (by decide) (by decide) (by decide) (by rw [u64_value]; decide)).1
  exact h.trans (by decide)

/-! ### C10 -/

theorem take_succ_getD (l : List Nat) (n : Nat) (h : n < l.length) :
    l.take (n + 1) = l.take n ++ [l.getD n 0] := by
  rw [List.take_succ, List.getElem?_eq_getElem h, List.getD_eq_getElem?_getD,
    List.getElem?_eq_getElem h]
  rfl

theorem prefix_diff_scan_true (kmer last_full_kmer : List Nat) :
    ∀ (n : Nat) (acc : List Nat), n ≤ kmer.length →
      prefix_diff_scan kmer last_full_kmer n true acc = kmer.take n ++ acc := by
  intro n
  induction n with
  | zero => intro acc _; simp [prefix_diff_scan]
  | succ j ih =>
    intro acc hn
    simp only [prefix_diff_scan, Bool.true_or, if_pos]
    rw [ih (kmer.getD j 0 :: acc) (by omega), take_succ_getD kmer j (by omega),
      List.append_cons]

theorem prefix_diff_scan_false (kmer last_full_kmer : List Nat) :
    ∀ n : Nat, n ≤ kmer.length →
      ∃ m, m ≤ n
        ∧ prefix_diff_scan kmer last_full_kmer n false [] = kmer.take m
        ∧ (∀ j, m ≤ j → j < n → kmer.getD j 0 = last_full_kmer.getD j 0)
        ∧ (m = 0 ∨ kmer.getD (m - 1) 0 ≠ last_full_kmer.getD (m - 1) 0) := by
  intro n
  induction n with
  | zero =>
    intro _
    exact ⟨0, Nat.le_refl 0, by simp [prefix_diff_scan], by omega, Or.inl rfl⟩
  | succ j ih =>
    intro hn
    by_cases hbl : kmer.getD j 0 = last_full_kmer.getD j 0
    · obtain ⟨m, hm, heq, hagree, hmm⟩ := ih (by omega)
      refine ⟨m, by omega, ?_, ?_, hmm⟩
      · simp only [prefix_diff_scan, hbl]
        simpa using heq
      · intro i him hij
        by_cases hi : i < j
        · exact hagree i him hi
        · have : i = j := by omega
          rw [this]
          exact hbl
    · refine ⟨j + 1, Nat.le_refl _, ?_, by omega, Or.inr (by simpa using hbl)⟩
      simp only [prefix_diff_scan]
      have hflag : (false || decide (kmer.getD j 0 ≠ last_full_kmer.getD j 0)) = true := by
        simpa using hbl
      rw [hflag]
      simp only [if_pos]
      rw [prefix_diff_scan_true kmer last_full_kmer j [kmer.getD j 0] (by omega),
        take_succ_getD kmer j (by omega)]

/-- The relation the claim states between a kmer `cur`, the preceding
kmer `prev`, and the emitted diff `d`: the diff is exactly the
contiguous part of `cur` up to and including its first mismatch from
the right against `prev` (position `m - 1`; `m = 0` when the kmers are
equal), and `cur` is exactly reconstructed from `d` together with the
part of `prev` shared beyond the mismatch position. -/
def prefix_diff_relation (prev cur d : List Nat) : Prop :=
  ∃ m, m ≤ cur.length
    ∧ d = cur.take m
    ∧ (∀ j, m ≤ j → cur.getD j 0 = prev.getD j 0)
    ∧ (m = 0 ∨ cur.getD (m - 1) 0 ≠ prev.getD (m - 1) 0)
    ∧ cur = d ++ prev.drop m

theorem drop_eq_of_getD_agree (cur prev : List Nat) (m : Nat)
    (hlen : cur.length = prev.length)
    (hagree : ∀ j, m ≤ j → cur.getD j 0 = prev.getD j 0) :
    cur.drop m = prev.drop m := by
  apply List.ext_getElem?
  intro n
  rw [List.getElem?_drop, List.getElem?_drop]
  by_cases h : m + n < cur.length
  · rw [List.getElem?_eq_getElem h, List.getElem?_eq_getElem (by omega : m + n < prev.length)]
    have := hagree (m + n) (by omega)
    rw [List.getD_eq_getElem cur 0 h, List.getD_eq_getElem prev 0 (by omega)] at this
    rw [this]
  · rw [List.getElem?_eq_none (by omega), List.getElem?_eq_none (by omega)]

theorem scan_gives_prefix_diff_relation (cur prev : List Nat) (k : Nat)
    (hc : cur.length = k) (hp : prev.length = k) :
    prefix_diff_relation prev cur (prefix_diff_scan cur prev k false []) := by
  obtain ⟨m, hm, heq, hagree, hmm⟩ := prefix_diff_scan_false cur prev k (by omega)
  refine ⟨m, by omega, heq, ?_, hmm, ?_⟩
  · intro j hj
    by_cases hjk : j < k
    · exact hagree j hj hjk
    · rw [List.getD_eq_default cur 0 (by omega), List.getD_eq_default prev 0 (by omega)]
  · rw [heq]
    have hdrop : cur.drop m = prev.drop m :=
      drop_eq_of_getD_agree cur prev m (by omega)
        (fun j hj => by
          by_cases hjk : j < k
          · exact hagree j hj hjk
          · rw [List.getD_eq_default cur 0 (by omega), List.getD_eq_default prev 0 (by omega)])
    rw [← hdrop, List.take_append_drop]

theorem get_prefix_diffs_loop_relation (k : Nat) :
    ∀ (rest : List (List Nat)) (last_full_kmer : List Nat),
      last_full_kmer.length = k → (∀ km ∈ rest, km.length = k) →
      (get_prefix_diffs_loop rest last_full_kmer).length = rest.length
      ∧ ∀ n, n < rest.length →
          prefix_diff_relation
            (if n = 0 then last_full_kmer else rest.getD (n - 1) [])
            (rest.getD n [])
            ((get_prefix_diffs_loop rest last_full_kmer).getD n []) := by
  intro rest
  induction rest with
  | nil =>
    intro last_full_kmer _ _
    exact ⟨rfl, fun n hn => absurd hn (by simp)⟩
  | cons kmer rest2 ih =>
    intro last_full_kmer hlast hall
    have hkmer : kmer.length = k := hall kmer (by simp)
    have hall2 : ∀ km ∈ rest2, km.length = k := fun km hkm => hall km (by simp [hkm])
    obtain ⟨ihlen, ihrel⟩ := ih kmer hkmer hall2
    have hhead : prefix_diff_relation last_full_kmer kmer
        ((get_prefix_diffs_loop (kmer :: rest2) last_full_kmer).getD 0 []) := by
      by_cases hk0 : last_full_kmer.isEmpty
      · have hk : k = 0 := by
          rw [List.isEmpty_iff] at hk0
          rw [← hlast, hk0]
          rfl
        have hkm : kmer = [] := List.length_eq_zero.mp (by omega)
        have hlk : last_full_kmer = [] := List.isEmpty_iff.mp hk0
        simp only [get_prefix_diffs_loop, hk0, if_pos, List.getD_cons_zero]
        exact ⟨0, by omega, by simp [hkm], by simp [hkm, hlk], Or.inl rfl, by simp [hkm, hlk]⟩
      · simp only [get_prefix_diffs_loop, hk0, if_neg, Bool.false_eq_true, List.getD_cons_zero]
        rw [hlast]
        exact scan_gives_prefix_diff_relation kmer last_full_kmer k hkmer hlast
    constructor
    · simp only [get_prefix_diffs_loop]
      by_cases hk0 : last_full_kmer.isEmpty
      · simp [hk0, ihlen]
      · simp [hk0, ihlen]
    · intro n hn
      cases n with
      | zero => simpa using hhead
      | succ j =>
        have hj : j < rest2.length := by simpa using hn
        have := ihrel j hj
        have htail : (get_prefix_diffs_loop (kmer :: rest2) last_full_kmer).getD (j + 1) []
            = (get_prefix_diffs_loop rest2 kmer).getD j [] := by
          simp only [get_prefix_diffs_loop]
          by_cases hk0 : last_full_kmer.isEmpty
          · simp [hk0]
          · simp [hk0]
        rw [htail]
        cases j with
        | zero => simpa using this
        | succ i => simpa using this

/-- Claim C10: for every list of equal-length kmers, the first output of
`get_prefix_diffs` is the first kmer in full, and for every subsequent
kmer the emitted diff is exactly the contiguous part of that kmer up to
and including its first mismatch from the right against the preceding
kmer, so that each kmer is exactly reconstructed from its diff together
with the part of the preceding kmer shared beyond the mismatch position
(round-trip identity, `prefix_diff_relation`). -/
theorem c10_get_prefix_diffs_roundtrip (kmers : List (List Nat)) (k : Nat)
    (hlen : ∀ km ∈ kmers, km.length = k) :
    (get_prefix_diffs kmers).length = kmers.length
    ∧ (get_prefix_diffs kmers).getD 0 [] = kmers.getD 0 []
    ∧ ∀ n, n + 1 < kmers.length →
        prefix_diff_relation (kmers.getD n []) (kmers.getD (n + 1) [])
          ((get_prefix_diffs kmers).getD (n + 1) []) := by
  cases kmers with
  | nil => exact ⟨rfl, rfl, fun n hn => absurd hn (by simp)⟩
  | cons kmer0 rest =>
    have hk0 : kmer0.length = k := hlen kmer0 (by simp)
    have hall : ∀ km ∈ rest, km.length = k := fun km hkm => hlen km (by simp [hkm])
    have hunfold : get_prefix_diffs (kmer0 :: rest)
        = kmer0 :: get_prefix_diffs_loop rest kmer0 := by
      simp [get_prefix_diffs, get_prefix_diffs_loop]
    obtain ⟨hlooplen, hlooprel⟩ := get_prefix_diffs_loop_relation k rest kmer0 hk0 hall
    rw [hunfold]
    refine ⟨by simp [hlooplen], by simp, ?_⟩
    intro n hn
    have hn2 : n < rest.length := by simpa using hn
    have := hlooprel n hn2
    cases n with
    | zero => simpa using this
    | succ i => simpa using this

/-- Witness for C10 on the kmer list `[[1,2],[2,2]]` (k = 2): diffs are
`[[1,2],[2]]`, and `[2,2]` is rebuilt as `[2] ++ [1,2].drop 1`. -/
theorem c10_get_prefix_diffs_roundtrip_witness :
    (get_prefix_diffs [[1, 2], [2, 2]]).length = ([[1, 2], [2, 2]] : List (List Nat)).length
    ∧ (get_prefix_diffs [[1, 2], [2, 2]]).getD 0 [] = ([[1, 2], [2, 2]] : List (List Nat)).getD 0 []
    ∧ ∀ n, n + 1 < ([[1, 2], [2, 2]] : List (List Nat)).length →
        prefix_diff_relation (([[1, 2], [2, 2]] : List (List Nat)).getD n [])
          (([[1, 2], [2, 2]] : List (List Nat)).getD (n + 1) [])
          ((get_prefix_diffs [[1, 2], [2, 2]]).getD (n + 1) []) :=
  c10_get_prefix_diffs_roundtrip [[1, 2], [2, 2]] 2 (by decide)

/-! ### C4 -/

theorem haes_loop_some (prg : PRGInfo) :
    ∀ (rows : List Nat) (lo hi s0 a0 : Nat), s0 ≠ 0 →
      handle_allele_encapsulated_loop prg rows
        (some (SearchState.mk (lo, hi) [(s0, a0)] SearchVariantSiteState.within_variant_site))
      = SearchState.mk (lo, (run_extent prg s0 a0 hi rows).1) [(s0, a0)]
          SearchVariantSiteState.within_variant_site
        :: handle_allele_encapsulated_loop prg (run_extent prg s0 a0 hi rows).2 none := by
  intro rows
  induction rows with
  | nil =>
    intro lo hi s0 a0 _
    simp [handle_allele_encapsulated_loop, run_extent, cache_flush]
  | cons j rest ih =>
    intro lo hi s0 a0 hs0
    by_cases h0 : prg.sites_mask (prg.fm_index.sa j) = 0
    · have hrow : ¬ (row_locus prg j = (s0, a0)) := by
        intro hc
        apply hs0
        have h1 := congrArg Prod.fst hc
        simp only [row_locus] at h1
        rw [← h1, h0]
      rw [run_extent, if_neg hrow]
      simp only [handle_allele_encapsulated_loop, if_pos h0, cache_flush]
      simp
    · by_cases hpe : prg.sites_mask (prg.fm_index.sa j) = s0
          ∧ prg.allele_mask (prg.fm_index.sa j) = a0
      · have hrow : row_locus prg j = (s0, a0) := by
          simp only [row_locus, hpe.1, hpe.2]
        have hpath : ([(s0, a0)] : List (Nat × Nat))
            = [(prg.sites_mask (prg.fm_index.sa j), prg.allele_mask (prg.fm_index.sa j))] := by
          rw [hpe.1, hpe.2]
        rw [run_extent, if_pos hrow]
        simp only [handle_allele_encapsulated_loop, if_neg h0]
        rw [if_pos hpath]
        exact ih lo j s0 a0 hs0
      · have hrow : ¬ (row_locus prg j = (s0, a0)) := by
          intro hc
          rw [row_locus, Prod.mk.injEq] at hc
          exact hpe hc
        have hpath : ¬ (([(s0, a0)] : List (Nat × Nat))
            = [(prg.sites_mask (prg.fm_index.sa j), prg.allele_mask (prg.fm_index.sa j))]) := by
          intro hc
          simp only [List.cons.injEq, Prod.mk.injEq] at hc
          exact hpe ⟨hc.1.1.symm, hc.1.2.symm⟩
        rw [run_extent, if_neg hrow]
        simp only [handle_allele_encapsulated_loop, if_neg h0]
        rw [if_neg hpath]

theorem haes_loop_none_eq (prg : PRGInfo) (rows : List Nat) :
    handle_allele_encapsulated_loop prg rows none = coalesce_locus_runs prg rows := by
  have H : ∀ (n : Nat) (rows : List Nat), rows.length ≤ n →
      handle_allele_encapsulated_loop prg rows none = coalesce_locus_runs prg rows := by
    intro n
    induction n with
    | zero =>
      intro rows hlen
      have hnil : rows = [] := List.length_eq_zero.mp (by omega)
      subst hnil
      simp [handle_allele_encapsulated_loop, cache_flush, coalesce_locus_runs]
    | succ n ih =>
      intro rows hlen
      cases rows with
      | nil => simp [handle_allele_encapsulated_loop, cache_flush, coalesce_locus_runs]
      | cons i rest =>
        rw [coalesce_locus_runs]
        simp only [row_locus]
        by_cases h0 : prg.sites_mask (prg.fm_index.sa i) = 0
        · rw [if_pos h0]
          simp only [handle_allele_encapsulated_loop, if_pos h0, cache_flush,
            List.nil_append]
          rw [ih rest (by simpa using hlen)]
        · rw [if_neg h0]
          simp only [handle_allele_encapsulated_loop, if_neg h0]
          rw [haes_loop_some prg rest i i (prg.sites_mask (prg.fm_index.sa i))
            (prg.allele_mask (prg.fm_index.sa i)) h0]
          have hrest := run_extent_rest_length prg (prg.sites_mask (prg.fm_index.sa i))
            (prg.allele_mask (prg.fm_index.sa i)) rest i
          rw [ih _ (by simp at hlen; omega)]
  exact H rows.length rows (Nat.le_refl _)

/-- Claim C4: after the full read is consumed, every final search state
with a non-empty path is passed through unchanged, and every final
state with an empty path is split by scanning its SA rows in order:
rows whose PRG position lies outside any site each yield a singleton
state with empty path, and maximal runs of consecutive SA rows sharing
the same `(sites_mask[SA[i]], allele_mask[SA[i]])` locus each yield
exactly one state carrying that single-locus path and the run's SA
interval (`coalesce_locus_runs`, written from the spec's words). -/
theorem c4_allele_encapsulated_finalization (search_states : List SearchState)
    (prg : PRGInfo) :
    handle_allele_encapsulated_states search_states prg
      = search_states.flatMap (fun s =>
          if s.variant_site_path = [] then
            coalesce_locus_runs prg
              (List.range' s.sa_interval.1 (s.sa_interval.2 + 1 - s.sa_interval.1))
          else [s]) := by
  simp only [handle_allele_encapsulated_states, handle_allele_encapsulated_state]
  congr 1
  funext s
  rw [haes_loop_none_eq]

/-! ### C7 -/

theorem Coverage.ext' (a b : Coverage)
    (h1 : a.allele_base_counts = b.allele_base_counts)
    (h2 : a.allele_base_sizes = b.allele_base_sizes)
    (h3 : a.allele_sum_counts = b.allele_sum_counts)
    (h4 : a.grouped_counts = b.grouped_counts) : a = b := by
  cases a
  cases b
  simp_all

/-- Per-cell increment indicator of one `set_site_base_coverage` call; a
function of the (immutable) allele sizes, the boundaries map and the
call arguments only — not of the coverage values. -/
def ss_ghost_cell (sizes : Nat → Nat → Nat) (boundaries : SitesCoverageBoundaries)
    (path_element : Nat × Nat) (allele_coverage_offset max_bases_to_set : Nat) :
    Nat → Nat → Nat → Nat := fun s a i =>
  let site := (path_element.1 - 5) / 2
  let allele := path_element.2 - 1
  let index_end_boundary := min (allele_coverage_offset + max_bases_to_set) (sizes site allele)
  let index_start_boundary :=
    match boundaries path_element with
    | some previous_end => max allele_coverage_offset previous_end
    | none => allele_coverage_offset
  if s = site ∧ a = allele ∧ index_start_boundary ≤ i ∧ i < index_end_boundary then 1 else 0

/-- Boundaries-map effect of one `set_site_base_coverage` call. -/
def ss_ghost_bounds (sizes : Nat → Nat → Nat) (boundaries : SitesCoverageBoundaries)
    (path_element : Nat × Nat) (allele_coverage_offset max_bases_to_set : Nat) :
    SitesCoverageBoundaries := fun key =>
  if key = path_element then
    some (min (allele_coverage_offset + max_bases_to_set)
      (sizes ((path_element.1 - 5) / 2) (path_element.2 - 1)))
  else boundaries key

/-- `count_bases_consumed` of one `set_site_base_coverage` call. -/
def ss_ghost_count (sizes : Nat → Nat → Nat)
    (path_element : Nat × Nat) (allele_coverage_offset max_bases_to_set : Nat) : Nat :=
  min (allele_coverage_offset + max_bases_to_set)
      (sizes ((path_element.1 - 5) / 2) (path_element.2 - 1))
    - allele_coverage_offset

theorem set_site_base_coverage_spec (coverage : Coverage)
    (boundaries : SitesCoverageBoundaries) (path_element : Nat × Nat)
    (allele_coverage_offset max_bases_to_set : Nat) :
    set_site_base_coverage coverage boundaries path_element
        allele_coverage_offset max_bases_to_set
      = ({ coverage with allele_base_counts := (fun s a i =>
            Nat.iterate sat_inc
              (ss_ghost_cell coverage.allele_base_sizes boundaries path_element
                allele_coverage_offset max_bases_to_set s a i)
              (coverage.allele_base_counts s a i)) },
         ss_ghost_bounds coverage.allele_base_sizes boundaries path_element
           allele_coverage_offset max_bases_to_set,
         ss_ghost_count coverage.allele_base_sizes path_element
           allele_coverage_offset max_bases_to_set) := by
  simp only [set_site_base_coverage, ss_ghost_cell, ss_ghost_count,
    Prod.mk.injEq, and_true]
  constructor
  · apply Coverage.ext' <;> try rfl
    funext s a i
    dsimp only
    split_ifs with h
    · rw [Function.iterate_one]
    · rfl
  · funext key
    simp only [ss_ghost_bounds]

/-- Ghost mirror of `sa_abc_loop`: the per-cell increment counts and the
final boundaries map, as functions of the immutable structures and the
threaded loop state only — never of the coverage values. -/
def sa_abc_ghost (prg : PRGInfo) (sizes : Nat → Nat → Nat) (read_length : Nat) :
    List (Nat × Nat) → SitesCoverageBoundaries → Nat → Nat × Nat → Nat × Nat →
    (Nat → Nat → Nat → Nat) × SitesCoverageBoundaries
  | [], boundaries, _, _, _ => (fun _ _ _ => 0, boundaries)
  | path_element :: rest, boundaries, read_bases_consumed,
      last_site_prg_start_end, site_prg_start_end =>
    if read_length ≤ read_bases_consumed then (fun _ _ _ => 0, boundaries)
    else
      let site_se2 :=
        if last_site_prg_start_end.1 ≠ 0 then site_marker_prg_indexes path_element.1 prg
        else site_prg_start_end
      let consumed2 :=
        if last_site_prg_start_end.1 ≠ 0 then
          read_bases_consumed + (site_se2.1 - last_site_prg_start_end.2 - 1)
        else read_bases_consumed
      let cell := ss_ghost_cell sizes boundaries path_element 0 (read_length - consumed2)
      let bounds2 := ss_ghost_bounds sizes boundaries path_element 0 (read_length - consumed2)
      let cnt := ss_ghost_count sizes path_element 0 (read_length - consumed2)
      let r := sa_abc_ghost prg sizes read_length rest bounds2 (consumed2 + cnt) site_se2 site_se2
      (fun s a i => cell s a i + r.1 s a i, r.2)

theorem sa_abc_loop_spec (prg : PRGInfo) (read_length : Nat) :
    ∀ (path : List (Nat × Nat)) (coverage : Coverage) (boundaries : SitesCoverageBoundaries)
      (read_bases_consumed : Nat) (last_se site_se : Nat × Nat),
      sa_abc_loop prg read_length path coverage boundaries read_bases_consumed last_se site_se
        = ({ coverage with allele_base_counts := (fun s a i =>
              Nat.iterate sat_inc
                ((sa_abc_ghost prg coverage.allele_base_sizes read_length path boundaries
                    read_bases_consumed last_se site_se).1 s a i)
                (coverage.allele_base_counts s a i)) },
           (sa_abc_ghost prg coverage.allele_base_sizes read_length path boundaries
              read_bases_consumed last_se site_se).2) := by
  intro path
  induction path with
  | nil =>
    intro coverage boundaries consumed last_se site_se
    rfl
  | cons pe rest ih =>
    intro coverage boundaries consumed last_se site_se
    by_cases hc : read_length ≤ consumed
    · simp only [sa_abc_loop, sa_abc_ghost, if_pos hc]
      rfl
    · simp only [sa_abc_loop, sa_abc_ghost, if_neg hc]
      rw [set_site_base_coverage_spec, ih]
      simp only [Prod.mk.injEq]
      constructor
      · apply Coverage.ext' <;> try rfl
        funext s a i
        dsimp only
        rw [← Function.iterate_add_apply, Nat.add_comm]
      · trivial

/-- Ghost mirror of `sa_index_allele_base_coverage`. -/
def sa_index_ghost (prg : PRGInfo) (sizes : Nat → Nat → Nat)
    (boundaries : SitesCoverageBoundaries) (sa_index read_length : Nat)
    (search_state : SearchState) : (Nat → Nat → Nat → Nat) × SitesCoverageBoundaries :=
  let read_start_index := prg.fm_index.sa sa_index
  let start_site_marker := prg.sites_mask read_start_index
  match search_state.variant_site_path with
  | [] => (fun _ _ _ => 0, boundaries)
  | path_element :: rest =>
    if start_site_marker ≠ 0 then
      let last_site_prg_start_end := site_marker_prg_indexes path_element.1 prg
      let allele_coverage_offset := allele_start_offset_index read_start_index prg
      let cell := ss_ghost_cell sizes boundaries path_element allele_coverage_offset
        (read_length - 0)
      let bounds2 := ss_ghost_bounds sizes boundaries path_element allele_coverage_offset
        (read_length - 0)
      let cnt := ss_ghost_count sizes path_element allele_coverage_offset (read_length - 0)
      let r := sa_abc_ghost prg sizes read_length rest bounds2 (0 + cnt)
        last_site_prg_start_end (0, 0)
      (fun s a i => cell s a i + r.1 s a i, r.2)
    else
      let site_prg_start_end := site_marker_prg_indexes path_element.1 prg
      let read_bases_consumed := site_prg_start_end.1 - read_start_index
      sa_abc_ghost prg sizes read_length (path_element :: rest) boundaries
        read_bases_consumed (0, 0) site_prg_start_end

theorem sa_index_allele_base_coverage_spec (coverage : Coverage)
    (boundaries : SitesCoverageBoundaries) (sa_index read_length : Nat)
    (search_state : SearchState) (prg : PRGInfo) :
    sa_index_allele_base_coverage coverage boundaries sa_index read_length search_state prg
      = ({ coverage with allele_base_counts := (fun s a i =>
            Nat.iterate sat_inc
              ((sa_index_ghost prg coverage.allele_base_sizes boundaries sa_index
                  read_length search_state).1 s a i)
              (coverage.allele_base_counts s a i)) },
         (sa_index_ghost prg coverage.allele_base_sizes boundaries sa_index
            read_length search_state).2) := by
  cases hpath : search_state.variant_site_path with
  | nil =>
    simp only [sa_index_allele_base_coverage, sa_index_ghost, hpath]
    rfl
  | cons path_element rest =>
    by_cases h0 : prg.sites_mask (prg.fm_index.sa sa_index) ≠ 0
    · simp only [sa_index_allele_base_coverage, sa_index_ghost, hpath, if_pos h0]
      rw [set_site_base_coverage_spec, sa_abc_loop_spec]
      simp only [Prod.mk.injEq]
      constructor
      · apply Coverage.ext' <;> try rfl
        funext s a i
        dsimp only
        rw [← Function.iterate_add_apply, Nat.add_comm]
      · trivial
    · simp only [sa_index_allele_base_coverage, sa_index_ghost, hpath, if_neg h0]
      rw [sa_abc_loop_spec]

/-- Ghost mirror of `record_sa_range`. -/
def record_sa_range_ghost (prg : PRGInfo) (read_length : Nat) (search_state : SearchState)
    (sizes : Nat → Nat → Nat) :
    List Nat → SitesCoverageBoundaries → (Nat → Nat → Nat → Nat) × SitesCoverageBoundaries
  | [], boundaries => (fun _ _ _ => 0, boundaries)
  | sa_index :: rest, boundaries =>
    let g := sa_index_ghost prg sizes boundaries sa_index read_length search_state
    let r := record_sa_range_ghost prg read_length search_state sizes rest g.2
    (fun s a i => g.1 s a i + r.1 s a i, r.2)

theorem record_sa_range_spec (prg : PRGInfo) (read_length : Nat) (search_state : SearchState) :
    ∀ (sa_indexes : List Nat) (coverage : Coverage) (boundaries : SitesCoverageBoundaries),
      record_sa_range prg read_length search_state sa_indexes coverage boundaries
        = ({ coverage with allele_base_counts := (fun s a i =>
              Nat.iterate sat_inc
                ((record_sa_range_ghost prg read_length search_state
                    coverage.allele_base_sizes sa_indexes boundaries).1 s a i)
                (coverage.allele_base_counts s a i)) },
           (record_sa_range_ghost prg read_length search_state
              coverage.allele_base_sizes sa_indexes boundaries).2) := by
  intro sa_indexes
  induction sa_indexes with
  | nil =>
    intro coverage boundaries
    rfl
  | cons sa_index rest ih =>
    intro coverage boundaries
    simp only [record_sa_range, record_sa_range_ghost]
    rw [sa_index_allele_base_coverage_spec, ih]
    simp only [Prod.mk.injEq]
    constructor
    · apply Coverage.ext' <;> try rfl
      funext s a i
      dsimp only
      rw [← Function.iterate_add_apply, Nat.add_comm]
    · trivial

/-- Ghost mirror of `record_allele_base_states`. -/
def record_states_ghost (prg : PRGInfo) (read_length : Nat) (sizes : Nat → Nat → Nat) :
    List SearchState → SitesCoverageBoundaries →
    (Nat → Nat → Nat → Nat) × SitesCoverageBoundaries
  | [], boundaries => (fun _ _ _ => 0, boundaries)
  | search_state :: rest, boundaries =>
    if search_state.variant_site_path = [] then
      record_states_ghost prg read_length sizes rest boundaries
    else
      let g := record_sa_range_ghost prg read_length search_state sizes
        (List.range' search_state.sa_interval.1
          (search_state.sa_interval.2 + 1 - search_state.sa_interval.1)) boundaries
      let r := record_states_ghost prg read_length sizes rest g.2
      (fun s a i => g.1 s a i + r.1 s a i, r.2)

theorem record_allele_base_states_spec (prg : PRGInfo) (read_length : Nat) :
    ∀ (search_states : List SearchState) (coverage : Coverage)
      (boundaries : SitesCoverageBoundaries),
      record_allele_base_states prg read_length search_states coverage boundaries
        = ({ coverage with allele_base_counts := (fun s a i =>
              Nat.iterate sat_inc
                ((record_states_ghost prg read_length coverage.allele_base_sizes
                    search_states boundaries).1 s a i)
                (coverage.allele_base_counts s a i)) },
           (record_states_ghost prg read_length coverage.allele_base_sizes
              search_states boundaries).2) := by
  intro search_states
  induction search_states with
  | nil =>
    intro coverage boundaries
    rfl
  | cons search_state rest ih =>
    intro coverage boundaries
    by_cases hpath : search_state.variant_site_path = []
    · simp only [record_allele_base_states, record_states_ghost, if_pos hpath]
      exact ih coverage boundaries
    · simp only [record_allele_base_states, record_states_ghost, if_neg hpath]
      rw [record_sa_range_spec, ih]
      simp only [Prod.mk.injEq]
      constructor
      · apply Coverage.ext' <;> try rfl
        funext s a i
        dsimp only
        rw [← Function.iterate_add_apply, Nat.add_comm]
      · trivial

/-- The per-cell base-coverage increment count contributed by one read:
a function of the read's resolved states and length and of the immutable
structures only. -/
def read_base_cell (prg : PRGInfo) (sizes : Nat → Nat → Nat) (r : ReadDatum) :
    Nat → Nat → Nat → Nat :=
  (record_states_ghost prg r.read_length sizes r.states (fun _ => none)).1

/-- Indicator of the grouped-allele-counts cell bumped by one read. -/
def grouped_hit (r : ReadDatum) (site : Nat) (allele_ids : Finset Nat) : Nat :=
  if site ∈ grouped_sites r.states ∧ allele_ids = grouped_alleles_at r.states site then 1
  else 0

theorem record_read_spec (prg : PRGInfo) (coverage : Coverage) (r : ReadDatum) :
    record_read prg coverage r
      = { allele_base_counts := (fun s a i =>
            Nat.iterate sat_inc (read_base_cell prg coverage.allele_base_sizes r s a i)
              (coverage.allele_base_counts s a i)),
          allele_base_sizes := coverage.allele_base_sizes,
          allele_sum_counts := (fun s a =>
            coverage.allele_sum_counts s a + allele_sum_hits r.states s a),
          grouped_counts := (fun site g =>
            coverage.grouped_counts site g + grouped_hit r site g) } := by
  unfold record_read record_allele_base record_allele_sum record_grouped_allele_counts
    read_base_cell
  rw [record_allele_base_states_spec]
  apply Coverage.ext'
  · rfl
  · rfl
  · rfl
  · funext site g
    dsimp only
    by_cases h : site ∈ grouped_sites r.states ∧ g = grouped_alleles_at r.states site
    · rw [if_pos h, grouped_hit, if_pos h]
    · rw [if_neg h, grouped_hit, if_neg h]
      exact (Nat.add_zero _).symm

theorem foldl_record_read_spec (prg : PRGInfo) :
    ∀ (reads : List ReadDatum) (coverage : Coverage),
      reads.foldl (record_read prg) coverage
        = { allele_base_counts := (fun s a i =>
              Nat.iterate sat_inc
                ((reads.map (fun r => read_base_cell prg coverage.allele_base_sizes r s a i)).sum)
                (coverage.allele_base_counts s a i)),
            allele_base_sizes := coverage.allele_base_sizes,
            allele_sum_counts := (fun s a =>
              coverage.allele_sum_counts s a
                + (reads.map (fun r => allele_sum_hits r.states s a)).sum),
            grouped_counts := (fun site g =>
              coverage.grouped_counts site g
                + (reads.map (fun r => grouped_hit r site g)).sum) } := by
  intro reads
  induction reads with
  | nil =>
    intro coverage
    rfl
  | cons r rest ih =>
    intro coverage
    simp only [List.foldl_cons, List.map_cons, List.sum_cons]
    rw [record_read_spec, ih]
    apply Coverage.ext'
    · funext s a i
      dsimp only
      rw [← Function.iterate_add_apply, Nat.add_comm]
    · rfl
    · funext s a
      dsimp only
      rw [Nat.add_assoc]
    · funext site g
      dsimp only
      rw [Nat.add_assoc]

/-- Claim C7: for every fixed PRG with its derived structures and every
finite list of reads (each given by its deterministically resolved
search states and length), recording coverage for the reads in any two
orders (any permutation of the list) yields identical final coverage
structures: the same allele sum counts, the same per-base allele
coverage (including under u16 saturation — each cell only ever evolves
by the saturating increment, so its final value depends only on its
total hit count), and the same grouped allele counts. -/
theorem c7_coverage_commutes_under_read_order (prg : PRGInfo) (coverage : Coverage)
    (reads1 reads2 : List ReadDatum) (hperm : reads1.Perm reads2) :
    reads1.foldl (record_read prg) coverage = reads2.foldl (record_read prg) coverage := by
  rw [foldl_record_read_spec, foldl_record_read_spec]
  apply Coverage.ext'
  · funext s a i
    dsimp only
    rw [(hperm.map (fun r => read_base_cell prg coverage.allele_base_sizes r s a i)).sum_eq]
  · rfl
  · funext s a
    dsimp only
    rw [(hperm.map (fun r => allele_sum_hits r.states s a)).sum_eq]
  · funext site g
    dsimp only
    rw [(hperm.map (fun r => grouped_hit r site g)).sum_eq]

/-- A zeroed concrete coverage value over alleles of length 3. -/
def toyCoverage : Coverage :=
  { allele_base_counts := fun _ _ _ => 0, allele_base_sizes := fun _ _ => 3,
    allele_sum_counts := fun _ _ => 0, grouped_counts := fun _ _ => 0 }

/-- A concrete read mapping: one state through site 5, allele 1. -/
def toyRead1 : ReadDatum :=
  { states := [{ sa_interval := (0, 0), variant_site_path := [(5, 1)],
                 variant_site_state := SearchVariantSiteState.within_variant_site }],
    read_length := 2 }

/-- A concrete read mapping with no states (unmapped read). -/
def toyRead2 : ReadDatum :=
  { states := [], read_length := 1 }

/-- Witness for C7: recording the two concrete reads in either order
yields the same coverage. -/
theorem c7_coverage_commutes_witness :
    [toyRead1, toyRead2].foldl (record_read toyPrgInfo) toyCoverage
      = [toyRead2, toyRead1].foldl (record_read toyPrgInfo) toyCoverage :=
  c7_coverage_commutes_under_read_order toyPrgInfo toyCoverage
    [toyRead1, toyRead2] [toyRead2, toyRead1] (List.Perm.swap toyRead2 toyRead1 [])
